import Mathlib

/-!
Shallow embedding of the XTM filter-template guide core
(`xtm_filter_templates_app.py`): the template catalog data model, the
free-text/category filter, the wizard rule table and resolver, the
category option list and the category aggregator, together with proofs
of the stated properties.
-/

set_option maxHeartbeats 1000000

namespace XTM

/-- One template record of the catalog ("Filter Templates.json").
`name` is required (the code indexes `t["name"]` directly); the other
fields are optional and read through `dict.get` with defaults. -/
structure Template where
  name : String
  description : Option String
  recommended_usage : Option String
  suggested_use : Option String
  category : Option String
deriving DecidableEq, Repr

/-- `t.get("category", "Uncategorized")`: the default applies only when
the field is absent; a present empty string is returned as-is. -/
def getCategory (t : Template) : String :=
  t.category.getD "Uncategorized"

/-- `t.get("description", "")`. -/
def getDescription (t : Template) : String :=
  t.description.getD ""

/-- Python `str.lower()`, modelled as character-wise lowercasing. -/
def strLower (s : String) : String :=
  ⟨s.data.map Char.toLower⟩

/-- Python substring containment `needle in hay` on strings. -/
def strIn (needle hay : String) : Bool :=
  decide (needle.toList <:+: hay.toList)

/-- The sidebar query: `search_term` text box and `selected_category`
select box (`"All"` or an exact category string). -/
structure FilterQuery where
  searchTerm : String
  categoryConstraint : String
deriving DecidableEq, Repr

/-- The search-term test of the filter loop (line 119):
`search_term.lower() in t["name"].lower()
 or search_term.lower() in t.get("description", "").lower()`. -/
def searchMatch (q : FilterQuery) (t : Template) : Bool :=
  strIn (strLower q.searchTerm) (strLower t.name)
    || strIn (strLower q.searchTerm) (strLower (getDescription t))

/-- The category test of the filter loop (line 120):
`selected_category == "All" or t.get("category", "Uncategorized") == selected_category`. -/
def categoryMatch (q : FilterQuery) (t : Template) : Bool :=
  q.categoryConstraint == "All" || getCategory t == q.categoryConstraint

/-- The filter loop (lines 117-121): iterate `templates` in order and
append each record passing both nested tests. -/
def filtered (templates : List Template) (q : FilterQuery) : List Template :=
  templates.filter (fun t => searchMatch q t && categoryMatch q t)

/-- One wizard rule: the single question and the answer-label →
recommended-template-names mapping, in authoring order. -/
structure RuleEntry where
  question : String
  answers : List (String × List String)
deriving DecidableEq, Repr

/-- The hand-authored `rules` constant (lines 21-68), in authoring order. -/
def rules : List (String × RuleEntry) :=
  [ ("PowerPoint",
      { question := "Will the notes need to be extracted?"
        answers :=
          [ ("Yes", ["PowerPoint with notes", "PPT w Notes"])
          , ("No",
              [ "PowerPoint without notes"
              , "PPT w/o Notes"
              , "PPTX w/o Notes, Comments and Hidden Slides" ]) ] })
  , ("Excel",
      { question := "Is it bilingual or monolingual?"
        answers :=
          [ ("Bilingual", ["Bilingual Excel", "Bilingual Excel – Websites"])
          , ("Monolingual", ["Monolingual Excel – Aldo"]) ] })
  , ("Word",
      { question := "Should headers/footers be translated?"
        answers :=
          [ ("Yes", ["DOCX – exclude properties"])
          , ("No", ["Word w/o Headers/Footers"]) ] })
  , ("Subtitles",
      { question := "Which format?"
        answers :=
          [ ("SRT", ["SRT Custom Files"])
          , ("VTT", ["VTT"]) ] })
  , ("JSON",
      { question := "What type of JSON handling?"
        answers :=
          [ ("Ignore underscore keys", ["JSON exclude underscore keys"])
          , ("Protect placeholders", ["JSON Variables"]) ] })
  , ("XML",
      { question := "Which XML type?"
        answers :=
          [ ("Sitecore CMS", ["Sitecore XML"])
          , ("SoundTransit", ["XML soundtransit"]) ] }) ]

/-- Python dict lookup `rules[selected_file]`, as an option. -/
def rulesGet (fileType : String) : Option RuleEntry :=
  (rules.find? (fun p => p.1 == fileType)).map Prod.snd

/-- Python dict lookup `entry["answers"][answer]`, as an option. -/
def answersGet (e : RuleEntry) (answerLabel : String) : Option (List String) :=
  (e.answers.find? (fun p => p.1 == answerLabel)).map Prod.snd

/-- One wizard output item: an expander for a found record, or the
"not found in JSON" warning carrying the bare name. -/
inductive ResolvedItem where
  | Found : Template → ResolvedItem
  | Missing : String → ResolvedItem
deriving DecidableEq, Repr

/-- The suggestion loop (lines 92-102): for each suggested name `s`,
`match = [t for t in templates if t["name"] == s]`; show `match[0]`
when non-empty, otherwise the warning with the bare name. -/
def resolveSuggested (templates : List Template) (suggested : List String) :
    List ResolvedItem :=
  suggested.map (fun s =>
    match templates.filter (fun t => t.name == s) with
    | [] => ResolvedItem.Missing s
    | t :: _ => ResolvedItem.Found t)

/-- The whole wizard resolution: `suggested = rules[selected_file]["answers"][answer]`
(lines 90), then the suggestion loop; `none` models the `KeyError` a
lookup outside the table would raise. -/
def resolve (templates : List Template) (fileType answerLabel : String) :
    Option (List ResolvedItem) :=
  match rulesGet fileType with
  | none => none
  | some e =>
    match answersGet e answerLabel with
    | none => none
    | some suggested => some (resolveSuggested templates suggested)

/-- Line 111: `sorted(list(set([t.get("category", "Uncategorized") for t in templates])))`. -/
def categories (templates : List Template) : List String :=
  ((templates.map getCategory).dedup).insertionSort (· ≤ ·)

/-- Line 112: the options of the category select box, `["All"] + categories`. -/
def categoryOptions (templates : List Template) : List String :=
  "All" :: categories templates

/-- One step of the flowchart aggregation loop body (lines 228-233):
read the category, create its empty entry on first sight, then append
the record's name to that category's list. -/
def catsStep (acc : List (String × List String)) (t : Template) :
    List (String × List String) :=
  let cat := getCategory t
  let acc' := if acc.any (fun p => p.1 == cat) then acc else acc ++ [(cat, [])]
  acc'.map (fun p => if p.1 == cat then (p.1, p.2 ++ [t.name]) else p)

/-- The flowchart aggregation loop (lines 226-233): a single pass over
`templates` building the insertion-ordered dict `cats`. -/
def cats (templates : List Template) : List (String × List String) :=
  templates.foldl catsStep []

/-- A concrete catalog record used to evaluate the wizard on the
`Subtitles` / `VTT` rule. -/
def vttRecord : Template :=
  { name := "VTT", description := none, recommended_usage := none,
    suggested_use := none, category := some "Subtitles" }

/-- The `Subtitles` entry of `rules`, spelled out. -/
def subtitlesEntry : RuleEntry :=
  { question := "Which format?"
    answers := [("SRT", ["SRT Custom Files"]), ("VTT", ["VTT"])] }

/-- The distinct elements of a list in first-seen order: the key order of a
Python insertion-ordered dict built by the aggregation loop. -/
def firstSeen : List String → List String
  | [] => []
  | a :: l => a :: firstSeen (l.filter (fun b => !(b == a)))
termination_by l => l.length
decreasing_by
  simp_wf
  exact Nat.lt_succ_of_le (List.length_filter_le _ _)

/-- The names of the records of `c` whose (defaulted) category is `k`, in
catalog order. -/
def namesWith (c : List Template) (k : String) : List String :=
  (c.filter (fun t => getCategory t == k)).map Template.name

/-- Group-by normal form of the aggregation: the distinct categories in
first-seen order, each paired with its records' names in catalog order. -/
def catsSpec (c : List Template) : List (String × List String) :=
  (firstSeen (c.map getCategory)).map (fun k => (k, namesWith c k))

/-- Normal form of the aggregation loop started from accumulator `acc`:
existing entries are extended in place, new categories are appended after. -/
def mergeSpec (acc : List (String × List String)) (c : List Template) :
    List (String × List String) :=
  acc.map (fun p => (p.1, p.2 ++ namesWith c p.1)) ++
    catsSpec (c.filter (fun t => !(acc.any (fun p => p.1 == getCategory t))))

/-- A record whose category field is present but empty, distinguishing
"present and empty" from "absent". -/
def emptyCatRecord : Template :=
  { name := "x", description := none, recommended_usage := none,
    suggested_use := none, category := some "" }

end XTM

namespace XTM

/-! ### Helper lemmas -/

theorem head?_filter_eq_find? {α : Type} (p : α → Bool) (l : List α) :
    (l.filter p).head? = l.find? p := by
  induction l with
  | nil => rfl
  | cons a l ih => cases h : p a <;> simp [List.filter_cons, List.find?_cons, h, ih]

theorem strIn_empty (hay : String) : strIn (strLower "") hay = true := by
  have h0 : (strLower "").data = [] := rfl
  simp [strIn, String.toList, h0, List.nil_infix]

theorem resolveSuggested_getElem? (c : List Template) (names : List String)
    (i : Nat) (hi : i < names.length) :
    (resolveSuggested c names)[i]? =
      some (match c.find? (fun t => t.name == names[i]) with
        | some t => ResolvedItem.Found t
        | none => ResolvedItem.Missing names[i]) := by
  rw [resolveSuggested, List.getElem?_map, List.getElem?_eq_getElem hi]
  have hff := head?_filter_eq_find? (fun t => t.name == names[i]) c
  cases hfl : c.filter (fun t => t.name == names[i]) with
  | nil =>
    rw [hfl] at hff
    simp only [List.head?_nil] at hff
    simp [hfl, ← hff]
  | cons t rest =>
    rw [hfl] at hff
    simp only [List.head?_cons] at hff
    simp [hfl, ← hff]

/-! ### Claim theorems -/

/-- C1: a record is in the filter result iff the lower-cased search term is a
substring of the lower-cased name or of the lower-cased description (defaulted
to `""` when absent), and the category constraint is `"All"` or equals the
record's category (defaulted to `"Uncategorized"` when absent) exactly and
case-sensitively; in particular an empty search term passes the search test
for every record. -/
theorem filtered_mem_iff (c : List Template) (q : FilterQuery) (t : Template) :
    (t ∈ filtered c q ↔
      t ∈ c ∧
        ((strLower q.searchTerm).toList <:+: (strLower t.name).toList ∨
          (strLower q.searchTerm).toList <:+: (strLower (getDescription t)).toList) ∧
        (q.categoryConstraint = "All" ∨ getCategory t = q.categoryConstraint)) ∧
    (q.searchTerm = "" → searchMatch q t = true) := by
  constructor
  · simp [filtered, List.mem_filter, searchMatch, categoryMatch, strIn, and_assoc]
  · intro h
    rw [searchMatch, h, strIn_empty]
    simp

/-- C3: the filter result is a subsequence of the catalog: it is a sublist
(original relative order, no re-sorting), every record of the result occurs in
the catalog, and no record occurs more often than in the catalog. -/
theorem filtered_sublist (c : List Template) (q : FilterQuery) :
    (filtered c q).Sublist c ∧ (∀ t ∈ filtered c q, t ∈ c) ∧
      ∀ t : Template, (filtered c q).count t ≤ c.count t := by
  refine ⟨List.filter_sublist c, fun t ht => (List.filter_sublist c).subset ht,
    fun t => (List.filter_sublist c).count_le t⟩

/-- C6: filtering with the trivial query (empty search term, category
constraint `"All"`) is the identity on the catalog. -/
theorem filtered_trivial_query (c : List Template) :
    filtered c { searchTerm := "", categoryConstraint := "All" } = c := by
  rw [filtered]
  apply List.filter_eq_self.mpr
  intro t _
  rw [searchMatch]
  simp only [strIn_empty, Bool.true_or, Bool.true_and]
  rw [categoryMatch]
  simp

/-- C7: the filter, the category aggregation and the wizard resolution are
deterministic pure functions of their inputs: evaluating any of them twice on
identical inputs yields structurally identical outputs, and the catalog value
is untouched. -/
theorem coreOps_deterministic (c : List Template) (q : FilterQuery)
    (ft al : String) :
    filtered c q = filtered c q ∧ cats c = cats c ∧
      resolve c ft al = resolve c ft al ∧ categories c = categories c :=
  ⟨rfl, rfl, rfl, rfl⟩

/-- C9: the concrete `rules` table maps exactly the six file types, each key
occurs once (so each file type has exactly one question), every entry has a
non-empty answers mapping, and every answer label maps to a non-empty list of
template names. -/
theorem rules_invariant :
    rules.map Prod.fst = ["PowerPoint", "Excel", "Word", "Subtitles", "JSON", "XML"] ∧
    (rules.map Prod.fst).Nodup ∧
    ∀ p ∈ rules, p.2.answers ≠ [] ∧ ∀ a ∈ p.2.answers, a.2 ≠ [] := by
  refine ⟨by decide, by decide, by decide⟩

/-- C10: the category select-box options are the sentinel `"All"` followed by
the sorted, duplicate-free set of the catalog's (defaulted) category values;
hence every offered option other than `"All"` is the category of at least one
catalog record. -/
theorem categoryOptions_sorted_set (c : List Template) :
    categoryOptions c = "All" :: categories c ∧
    List.Sorted (· ≤ ·) (categories c) ∧
    (categories c).Nodup ∧
    ∀ x : String, x ∈ categories c ↔ ∃ t ∈ c, getCategory t = x := by
  refine ⟨rfl, ?_, ?_, fun x => ?_⟩
  · rw [categories]
    exact List.sorted_insertionSort _ _
  · rw [categories]
    exact (List.perm_insertionSort _ _).symm.nodup (List.nodup_dedup _)
  · rw [categories, List.mem_insertionSort, List.mem_dedup, List.mem_map]

end XTM
namespace XTM

/-- C2: for a file type present in the rule table and an answer label present
in that entry, the wizard yields one result item per recommended name, in the
order of the answer's name list (so the output has that list's length); the
item at index `i` is `Found` with the first catalog record whose name equals
the recommended name exactly, or `Missing` with the bare name when no record
matches. -/
theorem resolve_found_missing (c : List Template) (ft al : String)
    (e : RuleEntry) (names : List String)
    (h1 : rulesGet ft = some e) (h2 : answersGet e al = some names) :
    ∃ r, resolve c ft al = some r ∧ r.length = names.length ∧
      ∀ i : Nat, ∀ hi : i < names.length,
        r[i]? = some (match c.find? (fun t => t.name == names[i]) with
          | some t => ResolvedItem.Found t
          | none => ResolvedItem.Missing names[i]) := by
  refine ⟨resolveSuggested c names, ?_, by simp [resolveSuggested], ?_⟩
  · simp [resolve, h1, h2]
  · intro i hi
    exact resolveSuggested_getElem? c names i hi

/-- C2 witness: the `Subtitles`/`VTT` rule resolved against the one-record
catalog `[vttRecord]`. -/
theorem resolve_found_missing_witness :
    ∃ r, resolve [vttRecord] "Subtitles" "VTT" = some r ∧
      r.length = (["VTT"] : List String).length ∧
      ∀ i : Nat, ∀ hi : i < (["VTT"] : List String).length,
        r[i]? = some (match [vttRecord].find? (fun t => t.name == (["VTT"] : List String)[i]) with
          | some t => ResolvedItem.Found t
          | none => ResolvedItem.Missing (["VTT"] : List String)[i]) :=
  resolve_found_missing [vttRecord] "Subtitles" "VTT" subtitlesEntry ["VTT"]
    (by decide) (by decide)

/-- C8: for a valid (fileType, answerLabel) pair the wizard resolution always
returns a result list (never a raised error), of the full length of the
answer's name list, and a recommended name with no matching catalog record
yields the ordinary `Missing` value at its position while the remaining names
are still resolved. -/
theorem resolve_missing_total (c : List Template) (ft al : String)
    (e : RuleEntry) (names : List String)
    (h1 : rulesGet ft = some e) (h2 : answersGet e al = some names) :
    ∃ r, resolve c ft al = some r ∧ r.length = names.length ∧
      ∀ i : Nat, ∀ hi : i < names.length, (∀ t ∈ c, t.name ≠ names[i]) →
        r[i]? = some (ResolvedItem.Missing names[i]) := by
  refine ⟨resolveSuggested c names, ?_, by simp [resolveSuggested], ?_⟩
  · simp [resolve, h1, h2]
  · intro i hi hnone
    rw [resolveSuggested_getElem? c names i hi]
    have hfind : c.find? (fun t => t.name == names[i]) = none := by
      apply List.find?_eq_none.mpr
      intro t ht
      simp [hnone t ht]
    rw [hfind]

/-- C8 witness: the `Subtitles`/`VTT` rule resolved against the empty catalog,
where the recommended name is missing. -/
theorem resolve_missing_total_witness :
    ∃ r, resolve ([] : List Template) "Subtitles" "VTT" = some r ∧
      r.length = (["VTT"] : List String).length ∧
      ∀ i : Nat, ∀ hi : i < (["VTT"] : List String).length,
        (∀ t ∈ ([] : List Template), t.name ≠ (["VTT"] : List String)[i]) →
        r[i]? = some (ResolvedItem.Missing (["VTT"] : List String)[i]) :=
  resolve_missing_total [] "Subtitles" "VTT" subtitlesEntry ["VTT"]
    (by decide) (by decide)

end XTM
namespace XTM

theorem mem_firstSeen (a : String) (l : List String) :
    a ∈ firstSeen l ↔ a ∈ l := by
  induction l using firstSeen.induct with
  | case1 => rw [firstSeen]
  | case2 b l ih =>
    rw [firstSeen]
    by_cases hab : a = b
    · subst hab; simp
    · simp only [List.mem_cons, ih, List.mem_filter, Bool.not_eq_true',
        beq_eq_false_iff_ne, ne_eq]
      constructor
      · rintro (h | ⟨h, _⟩)
        · exact Or.inl h
        · exact Or.inr h
      · rintro (h | h)
        · exact Or.inl h
        · exact Or.inr ⟨h, hab⟩

theorem nodup_firstSeen (l : List String) : (firstSeen l).Nodup := by
  induction l using firstSeen.induct with
  | case1 => rw [firstSeen]; exact List.nodup_nil
  | case2 b l ih =>
    rw [firstSeen]
    refine List.nodup_cons.mpr ⟨fun hb => ?_, ih⟩
    rw [mem_firstSeen] at hb
    simp at hb

theorem namesWith_cons (t : Template) (c : List Template) (k : String) :
    namesWith (t :: c) k =
      if getCategory t == k then t.name :: namesWith c k else namesWith c k := by
  rw [namesWith, List.filter_cons]
  cases h : getCategory t == k <;> simp [h, namesWith]

theorem namesWith_filter_eq (c : List Template) (P : Template → Bool) (k : String)
    (hP : ∀ t', getCategory t' = k → P t' = true) :
    namesWith (c.filter P) k = namesWith c k := by
  rw [namesWith, namesWith, List.filter_filter]
  congr 1
  apply List.filter_congr
  intro t' _
  by_cases ht : getCategory t' = k
  · simp [ht, hP t' ht]
  · simp [ht]

theorem map_getCategory_filter (l : List Template) (q : String → Bool) :
    (l.filter (fun t => q (getCategory t))).map getCategory =
      (l.map getCategory).filter q := by
  induction l with
  | nil => rfl
  | cons t l ih => cases h : q (getCategory t) <;> simp [List.filter_cons, h, ih]

theorem any_key_map_update (acc : List (String × List String)) (cat nm x : String) :
    ((acc.map (fun p => if p.1 == cat then (p.1, p.2 ++ [nm]) else p)).any
        (fun p => p.1 == x)) =
      acc.any (fun p => p.1 == x) := by
  induction acc with
  | nil => rfl
  | cons p acc ih =>
    simp only [List.map_cons, List.any_cons, ih]
    congr 1
    cases hp : p.1 == cat <;> simp [hp]

theorem catsStep_key_found (acc : List (String × List String)) (t : Template)
    (h : acc.any (fun p => p.1 == getCategory t) = true) :
    catsStep acc t =
      acc.map (fun p => if p.1 == getCategory t then (p.1, p.2 ++ [t.name]) else p) := by
  rw [catsStep]
  simp only [h, if_true]

theorem catsStep_key_new (acc : List (String × List String)) (t : Template)
    (h : acc.any (fun p => p.1 == getCategory t) = false) :
    catsStep acc t = acc ++ [(getCategory t, [t.name])] := by
  rw [catsStep]
  simp only [h, if_false, Bool.false_eq_true, List.map_append]
  have hacc : acc.map (fun p => if p.1 == getCategory t then (p.1, p.2 ++ [t.name]) else p) = acc := by
    have h' := List.any_eq_false.mp h
    conv_rhs => rw [← List.map_id acc]
    apply List.map_congr_left
    intro p hp
    simp [h' p hp]
  rw [hacc]
  simp

end XTM
namespace XTM

theorem string_beq_comm (a b : String) : (a == b) = (b == a) := by
  by_cases h : a = b
  · rw [h]
  · rw [beq_eq_false_iff_ne.mpr h, beq_eq_false_iff_ne.mpr (Ne.symm h)]

theorem catsSpec_cons (t : Template) (l : List Template) :
    catsSpec (t :: l) =
      (getCategory t, t.name :: namesWith l (getCategory t)) ::
        catsSpec (l.filter (fun u => !(getCategory u == getCategory t))) := by
  rw [catsSpec, List.map_cons, firstSeen, List.map_cons]
  congr 1
  · rw [namesWith_cons]
    simp
  · rw [catsSpec, map_getCategory_filter l (fun b => !(b == getCategory t))]
    apply List.map_congr_left
    intro k hk
    have hk' : (k == getCategory t) = false := by
      rw [mem_firstSeen, List.mem_filter] at hk
      simpa using hk.2
    have hkt : (getCategory t == k) = false := by
      rw [string_beq_comm]; exact hk'
    rw [namesWith_cons, hkt, if_neg (by simp)]
    rw [namesWith_filter_eq]
    intro u hu
    rw [hu, hk']
    rfl

theorem mergeSpec_step (acc : List (String × List String)) (t : Template)
    (c : List Template) :
    mergeSpec (catsStep acc t) c = mergeSpec acc (t :: c) := by
  cases h : acc.any (fun p => p.1 == getCategory t) with
  | true =>
    rw [catsStep_key_found acc t h, mergeSpec, mergeSpec]
    congr 1
    · rw [List.map_map]
      apply List.map_congr_left
      intro p _
      simp only [Function.comp_apply]
      cases hp : p.1 == getCategory t with
      | true =>
        have hp' : p.1 = getCategory t := by simpa using hp
        have hcat : (getCategory t == p.1) = true := by
          rw [string_beq_comm]; exact hp
        simp only [hp, if_true, namesWith_cons, hcat, List.append_assoc,
          List.singleton_append]
      | false =>
        have hcat : (getCategory t == p.1) = false := by
          rw [string_beq_comm]; exact hp
        simp only [hp, namesWith_cons, hcat]
        simp
    · have hpred : (fun u => !((acc.map (fun p =>
          if p.1 == getCategory t then (p.1, p.2 ++ [t.name]) else p)).any
            (fun p => p.1 == getCategory u))) =
          (fun u : Template => !(acc.any (fun p => p.1 == getCategory u))) := by
        funext u
        rw [any_key_map_update]
      rw [hpred, List.filter_cons]
      have ht : (!(acc.any (fun p => p.1 == getCategory t))) = false := by
        rw [h]; rfl
      rw [ht]
      simp
  | false =>
    rw [catsStep_key_new acc t h, mergeSpec, mergeSpec, List.map_append]
    have hkeys := List.any_eq_false.mp h
    have hmap : acc.map (fun p => (p.1, p.2 ++ namesWith c p.1)) =
        acc.map (fun p => (p.1, p.2 ++ namesWith (t :: c) p.1)) := by
      apply List.map_congr_left
      intro p hp
      have h1 : (p.1 == getCategory t) = false := by
        have := hkeys p hp
        simpa using this
      have h2 : (getCategory t == p.1) = false := by
        rw [string_beq_comm]; exact h1
      rw [namesWith_cons, h2, if_neg (by simp)]
    have hPt : (!(acc.any (fun p => p.1 == getCategory t))) = true := by
      rw [h]; rfl
    rw [hmap, List.filter_cons, hPt, if_pos rfl, catsSpec_cons, List.append_assoc]
    congr 1
    have hnames : namesWith (c.filter
        (fun u => !(acc.any (fun p => p.1 == getCategory u)))) (getCategory t) =
        namesWith c (getCategory t) := by
      apply namesWith_filter_eq
      intro u hu
      rw [hu, h]
      rfl
    rw [hnames]
    simp only [List.map_cons, List.map_nil, List.singleton_append]
    congr 1
    congr 1
    rw [List.filter_filter]
    apply List.filter_congr
    intro u _
    simp only [List.any_append, List.any_cons, List.any_nil, Bool.or_false,
      Bool.not_or]
    rw [string_beq_comm (getCategory u) (getCategory t)]
    rw [Bool.and_comm]

theorem foldl_catsStep_eq (c : List Template) :
    ∀ acc : List (String × List String), c.foldl catsStep acc = mergeSpec acc c := by
  induction c with
  | nil =>
    intro acc
    rw [List.foldl_nil, mergeSpec]
    simp [catsSpec, firstSeen, namesWith]
  | cons t c ih =>
    intro acc
    rw [List.foldl_cons, ih, mergeSpec_step]

theorem cats_eq_catsSpec (c : List Template) : cats c = catsSpec c := by
  rw [cats, foldl_catsStep_eq, mergeSpec]
  simp

end XTM
namespace XTM

theorem length_namesWith (c : List Template) (k : String) :
    (namesWith c k).length = (c.map getCategory).count k := by
  rw [namesWith, List.length_map, ← List.countP_eq_length_filter, List.count,
    List.countP_map]
  rfl

/-- C4: the lengths of the aggregation's per-category name sequences sum to
the number of catalog records, and each category's record count (occurrences
of that category among the defaulted category values) equals the length of
that category's name sequence. -/
theorem cats_counts_consistent (c : List Template) :
    ((cats c).map (fun p => p.2.length)).sum = c.length ∧
    ∀ p ∈ cats c, p.2.length = (c.map getCategory).count p.1 := by
  constructor
  · rw [cats_eq_catsSpec, catsSpec, List.map_map]
    have hmap : ((fun p : String × List String => p.2.length) ∘
        fun k => (k, namesWith c k)) = fun k => (c.map getCategory).count k := by
      funext k
      exact length_namesWith c k
    rw [hmap]
    have hperm : (firstSeen (c.map getCategory)).Perm (c.map getCategory).dedup :=
      (List.perm_ext_iff_of_nodup (nodup_firstSeen _) (List.nodup_dedup _)).2
        (fun a => (mem_firstSeen a _).trans List.mem_dedup.symm)
    rw [(hperm.map _).sum_eq, List.sum_map_count_dedup_eq_length, List.length_map]
  · intro p hp
    rw [cats_eq_catsSpec, catsSpec] at hp
    obtain ⟨k, hk, rfl⟩ := List.mem_map.mp hp
    exact length_namesWith c k

/-- C5 counterexample: a record whose category field is present but equal to
the empty string is grouped under the empty-string category, not under
`"Uncategorized"`, so "absent or empty" overstates the defaulting. -/
theorem cats_empty_category_counterexample :
    cats [emptyCatRecord] = [("", ["x"])] ∧
    cats [emptyCatRecord] ≠ [("Uncategorized", ["x"])] :=
  ⟨by decide, by decide⟩

/-- C5 (amended): the aggregator is a single pass over the catalog grouping
records by category — defaulted to `"Uncategorized"` only when the field is
absent (a present empty string stays the category `""`) — appending each
record's name to its category's sequence, with categories in first-seen order
and names in catalog insertion order, and no sorting applied. -/
theorem cats_first_seen_groupby (c : List Template) :
    cats c = (firstSeen (c.map getCategory)).map (fun k => (k, namesWith c k)) ∧
    (∀ t : Template, t.category = none → getCategory t = "Uncategorized") ∧
    ∀ t : Template, ∀ s : String, t.category = some s → getCategory t = s := by
  refine ⟨by rw [cats_eq_catsSpec, catsSpec], fun t ht => ?_, fun t s ht => ?_⟩
  · rw [getCategory, ht]
    rfl
  · rw [getCategory, ht]
    rfl

end XTM
